import Mathlib

/-!
Smart Web Summarizer — verification of the extraction-and-recovery pipeline.

Shallow embedding of the pipeline code of the repository
(`src/unnamed/part_001`, the API route handler, and `src/unnamed/part_000`,
the client history store), together with theorems settling the frozen
claims about it.

Strings are modelled as Lean `String` / `List Char` (Unicode code points);
the JavaScript platform builtins the code calls (`JSON.parse`,
`String.prototype.trim`, the regex `\s`) are embedded as executable Lean
functions faithful to their specified behaviour on the fragment the code
exercises.
-/

set_option autoImplicit false

namespace SWS

/-- JavaScript `\s` / `String.prototype.trim` whitespace class:
space, tab, LF, VT, FF, CR, NBSP, and the Unicode space separators,
line/paragraph separators and BOM. -/
def isJsWhitespace (c : Char) : Bool :=
  c = ' ' || c = '\t' || c = '\n' || c = '\x0b' || c = '\x0c' || c = '\r' ||
  c = ' ' || c = ' ' ||
  (' ' ≤ c && c ≤ ' ') ||
  c = ' ' || c = ' ' || c = ' ' || c = ' ' ||
  c = '　' || c = '﻿'

/-- Worker for the regex replacement `replace(/\s+/g, " ")`: the flag
records whether the previous character belonged to a whitespace run, so
each maximal run contributes exactly one space. -/
def collapseWsAux : Bool → List Char → List Char
  | _, [] => []
  | prevWs, c :: rest =>
    if isJsWhitespace c then
      if prevWs then collapseWsAux true rest
      else ' ' :: collapseWsAux true rest
    else c :: collapseWsAux false rest

/-- Model of `text.replace(/\s+/g, " ")`: every maximal run of whitespace becomes a
single space. -/
def collapseWs (l : List Char) : List Char := collapseWsAux false l

/-- Model of `String.prototype.trim`: drop leading and trailing whitespace. -/
def jsTrimL (l : List Char) : List Char :=
  ((l.dropWhile isJsWhitespace).reverse.dropWhile isJsWhitespace).reverse

/-- The `trim()` builtin lifted to `String`. -/
def trimStr (s : String) : String :=
  String.mk (jsTrimL s.toList)

/-- Function `normalizeWhitespace` (part_001 lines 7–9):
`text.replace(/\s+/g, " ").trim()`. -/
def normalizeWhitespace (s : String) : String :=
  String.mk (jsTrimL (collapseWs s.toList))

/-- Function `clamp` (part_001 lines 11–14): identity when within budget, else the
prefix of `maxChars` characters. -/
def clamp (text : String) (maxChars : Nat) : String :=
  if text.length ≤ maxChars then text else String.mk (text.toList.take maxChars)

/-! Section: JSON values and `JSON.parse`

The route handler calls the platform's `JSON.parse` / `JSON.stringify`.
They are embedded here over a `Json` value type.  Numeric values are kept
as their source literal (no claim depends on numeric magnitude). -/

inductive Json where
  | null
  | bool (b : Bool)
  | num (lit : String)
  | str (s : String)
  | arr (elems : List Json)
  | obj (members : List (String × Json))

/-- JSON grammar whitespace (`ws` in RFC 8259): space, tab, LF, CR. -/
def isJsonWs (c : Char) : Bool :=
  c = ' ' || c = '\t' || c = '\n' || c = '\r'

def skipWs (s : List Char) : List Char := s.dropWhile isJsonWs

def hexVal (c : Char) : Option Nat :=
  if '0' ≤ c ∧ c ≤ '9' then some (c.toNat - '0'.toNat)
  else if 'a' ≤ c ∧ c ≤ 'f' then some (c.toNat - 'a'.toNat + 10)
  else if 'A' ≤ c ∧ c ≤ 'F' then some (c.toNat - 'A'.toNat + 10)
  else none

/-- Single-character escape sequences of JSON strings. -/
def escChar (c : Char) : Option Char :=
  if c = '"' then some '"'
  else if c = '\\' then some '\\'
  else if c = '/' then some '/'
  else if c = 'b' then some '\x08'
  else if c = 'f' then some '\x0c'
  else if c = 'n' then some '\n'
  else if c = 'r' then some '\r'
  else if c = 't' then some '\t'
  else none

/-- Body of a JSON string after the opening quote: returns the decoded
characters and the remainder after the closing quote. -/
def parseStringBody : List Char → Option (List Char × List Char)
  | [] => none
  | '"' :: rest => some ([], rest)
  | '\\' :: 'u' :: h1 :: h2 :: h3 :: h4 :: rest =>
    match hexVal h1, hexVal h2, hexVal h3, hexVal h4 with
    | some a, some b, some c, some d =>
      (parseStringBody rest).map
        (fun p => (Char.ofNat (((a * 16 + b) * 16 + c) * 16 + d) :: p.1, p.2))
    | _, _, _, _ => none
  | '\\' :: e :: rest =>
    match escChar e with
    | some ch => (parseStringBody rest).map (fun p => (ch :: p.1, p.2))
    | none => none
  | c :: rest =>
    if c.toNat < 0x20 then none
    else (parseStringBody rest).map (fun p => (c :: p.1, p.2))

def isDigit (c : Char) : Bool := '0' ≤ c && c ≤ '9'

/-- Optional fraction part `.[0-9]+`. -/
def parseFrac (s : List Char) : Option (List Char × List Char) :=
  match s with
  | '.' :: r =>
    let ds := r.takeWhile isDigit
    if ds = [] then none else some ('.' :: ds, r.dropWhile isDigit)
  | _ => some ([], s)

/-- Optional exponent part `[eE][+-]?[0-9]+`. -/
def parseExp (s : List Char) : Option (List Char × List Char) :=
  match s with
  | [] => some ([], [])
  | c :: r =>
    if c = 'e' ∨ c = 'E' then
      let sg : List Char × List Char :=
        match r with
        | '+' :: rr => (['+'], rr)
        | '-' :: rr => (['-'], rr)
        | _ => ([], r)
      let ds := sg.2.takeWhile isDigit
      if ds = [] then none
      else some (c :: (sg.1 ++ ds), sg.2.dropWhile isDigit)
    else some ([], s)

/-- JSON number literal `-?(0|[1-9][0-9]*)(.[0-9]+)?([eE][+-]?[0-9]+)?`,
returned as its span of characters. -/
def parseNumberLit (s : List Char) : Option (List Char × List Char) :=
  let sg : List Char × List Char :=
    match s with
    | '-' :: r => (['-'], r)
    | _ => ([], s)
  match sg.2 with
  | [] => none
  | c :: r =>
    if ¬ (isDigit c) then none
    else
      let ip : List Char × List Char :=
        if c = '0' then ([c], r)
        else (c :: r.takeWhile isDigit, r.dropWhile isDigit)
      match parseFrac ip.2 with
      | none => none
      | some (f, r2) =>
        match parseExp r2 with
        | none => none
        | some (e, r3) => some (sg.1 ++ ip.1 ++ f ++ e, r3)

/-- Task selector for the recursive descent: a value, the element list of a
 non-empty array, or the member list of a non-empty object. -/
inductive PTask where
  | value
  | elems
  | members

inductive POut where
  | val (v : Json)
  | vs (l : List Json)
  | ms (l : List (String × Json))

/-- Recursive-descent JSON parser, fuelled (the fuel only bounds the
recursion depth of the descent; `jsonParse?` supplies enough for any
input of the given length). -/
def parseRun : Nat → PTask → List Char → Option (POut × List Char)
  | 0, _, _ => none
  | Nat.succ f, PTask.value, s =>
    match skipWs s with
    | [] => none
    | '"' :: rest =>
      (parseStringBody rest).map (fun p => (POut.val (Json.str (String.mk p.1)), p.2))
    | '{' :: rest =>
      (match skipWs rest with
      | '}' :: r => some (POut.val (Json.obj []), r)
      | rest' =>
        match parseRun f PTask.members rest' with
        | some (POut.ms l, r) => some (POut.val (Json.obj l), r)
        | _ => none)
    | '[' :: rest =>
      (match skipWs rest with
      | ']' :: r => some (POut.val (Json.arr []), r)
      | rest' =>
        match parseRun f PTask.elems rest' with
        | some (POut.vs l, r) => some (POut.val (Json.arr l), r)
        | _ => none)
    | 't' :: 'r' :: 'u' :: 'e' :: r => some (POut.val (Json.bool true), r)
    | 'f' :: 'a' :: 'l' :: 's' :: 'e' :: r => some (POut.val (Json.bool false), r)
    | 'n' :: 'u' :: 'l' :: 'l' :: r => some (POut.val Json.null, r)
    | s' => (parseNumberLit s').map (fun p => (POut.val (Json.num (String.mk p.1)), p.2))
  | Nat.succ f, PTask.elems, s =>
    match parseRun f PTask.value s with
    | some (POut.val v, rest) =>
      (match skipWs rest with
      | ',' :: r =>
        (match parseRun f PTask.elems r with
        | some (POut.vs l, r') => some (POut.vs (v :: l), r')
        | _ => none)
      | ']' :: r => some (POut.vs [v], r)
      | _ => none)
    | _ => none
  | Nat.succ f, PTask.members, s =>
    match skipWs s with
    | '"' :: rest =>
      (match parseStringBody rest with
      | none => none
      | some (key, r1) =>
        match skipWs r1 with
        | ':' :: r2 =>
          (match parseRun f PTask.value r2 with
          | some (POut.val v, r3) =>
            (match skipWs r3 with
            | ',' :: r4 =>
              (match parseRun f PTask.members r4 with
              | some (POut.ms l, r5) => some (POut.ms ((String.mk key, v) :: l), r5)
              | _ => none)
            | '}' :: r4 => some (POut.ms [(String.mk key, v)], r4)
            | _ => none)
          | _ => none)
        | _ => none)
    | _ => none

/-- Model of `JSON.parse`: parse one value, allow surrounding whitespace, reject
trailing garbage; `none` models a thrown `SyntaxError`. -/
def jsonParse? (s : List Char) : Option Json :=
  match parseRun (4 * s.length + 4) PTask.value s with
  | some (POut.val v, rest) => if skipWs rest = [] then some v else none
  | _ => none

example : jsonParse? "null".toList = some Json.null := rfl
example : jsonParse? " [1, \"a\"] ".toList =
    some (Json.arr [Json.num "1", Json.str "a"]) := rfl
example : jsonParse? "\x7b\"a\": true\x7d".toList =
    some (Json.obj [("a", Json.bool true)]) := rfl
example : jsonParse? "Sure! \x7b\x7d".toList = none := rfl
example : jsonParse? "\x7b\"a\":1".toList = none := rfl

/-! Section: RecoveringParser: `extractFirstJsonObject` (part_001 lines 16–37) -/

/-- The fallback loop of `extractFirstJsonObject`: walk the characters from
the first `{`, keeping the running brace depth and the span consumed so
far (`acc` is `input.slice(start, i + 1)`); whenever the depth is zero,
try `JSON.parse` on the span. -/
def braceLoop : List Char → List Char → Int → Option Json
  | [], _, _ => none
  | c :: rest, acc, depth =>
    let depth' := if c = '{' then depth + 1 else if c = '}' then depth - 1 else depth
    let acc' := acc ++ [c]
    if depth' = 0 then
      match jsonParse? acc' with
      | some v => some v
      | none => braceLoop rest acc' depth'
    else braceLoop rest acc' depth'

/-- Function `extractFirstJsonObject` (part_001 lines 16–37): try a direct parse of
the whole input; otherwise scan from the first `{` with a brace-depth
counter.  The two `Error` messages are those of the source. -/
def extractFirstJsonObject (input : List Char) : Except String Json :=
  match jsonParse? input with
  | some v => Except.ok v
  | none =>
    match input.findIdx? (· = '{') with
    | none => Except.error "JSON introuvable dans la réponse du modèle"
    | some start =>
      match braceLoop (input.drop start) [] 0 with
      | some v => Except.ok v
      | none => Except.error "Impossible d'extraire un objet JSON valide"

/-- Specification-side brace depth of a span: +1 per `{`, −1 per `}`. -/
def braceDepth (s : List Char) : Int :=
  s.foldl (fun d c => if c = '{' then d + 1 else if c = '}' then d - 1 else d) 0

/-- Specification-side recovery scan, in the words of the spec: over the
text from the opening brace, the result is the parse of the substring
ending at the first position where the brace depth returns to zero at
which the parse succeeds. -/
def scanRecovery (s : List Char) : Option Json :=
  (List.range s.length).findSome? fun i =>
    if braceDepth (s.take (i + 1)) = 0 then jsonParse? (s.take (i + 1)) else none

/-! Section: ResultAssembler (part_001 lines 110–118) and response bullets -/

/-- JavaScript property access `obj?.k` on a parsed JSON value: objects
look the key up (last duplicate wins, as in `JSON.parse`); any other
value yields `undefined` (`none`). -/
def jsGet (j : Json) (k : String) : Option Json :=
  match j with
  | Json.obj ms => ms.foldl (fun acc m => if m.1 = k then some m.2 else acc) none
  | _ => none

mutual

/-- JavaScript `String(p)` coercion on a JSON value.  Arrays join their
elements with `,`, `null` elements joining as the empty string; objects
become `"[object Object]"`.  Numbers are rendered as their literal (their
canonical numeric form is not modelled; no claim depends on it). -/
def jsToString : Json → String
  | Json.null => "null"
  | Json.bool true => "true"
  | Json.bool false => "false"
  | Json.num lit => lit
  | Json.str s => s
  | Json.arr xs => String.intercalate "," (jsJoinParts xs)
  | Json.obj _ => "[object Object]"

def jsJoinParts : List Json → List String
  | [] => []
  | Json.null :: rest => "" :: jsJoinParts rest
  | x :: rest => jsToString x :: jsJoinParts rest

end

/-- Assembly of the title, part_001 lines 112–113: the title field if it is a string, else the
default placeholder. -/
def assembleTitle (parsed : Json) : String :=
  match jsGet parsed "title" with
  | some (Json.str s) => s
  | _ => "Résumé"

/-- Assembly of the bullets, part_001 lines 114–117: the `summary_points` field, coerced to strings
and truncated to the first three when it is an array, else empty. -/
def assembleBullets (parsed : Json) : List String :=
  match jsGet parsed "summary_points" with
  | some (Json.arr xs) => (xs.map jsToString).take 3
  | _ => []

/-- Response bullets, part_001 lines 158–164: bullets of the success response, recomputed
from the stored `summary` text; any parse failure or non-array field
leaves them empty. -/
def responseBullets (stored : String) : List String :=
  match jsonParse? stored.toList with
  | none => []
  | some summaryObj =>
    match jsGet summaryObj "summary_points" with
    | some (Json.arr xs) => (xs.map jsToString).take 3
    | _ => []

example :
    extractFirstJsonObject "xx".toList =
      Except.error "JSON introuvable dans la réponse du modèle" := rfl
example :
    extractFirstJsonObject "\x7b\"a\":1\x7d".toList =
      Except.ok (Json.obj [("a", Json.num "1")]) := rfl
example :
    extractFirstJsonObject "hi \x7b\"a\":1\x7d bye".toList =
      Except.ok (Json.obj [("a", Json.num "1")]) := rfl
example : assembleTitle (Json.obj [("title", Json.str "T")]) = "T" := rfl
example : assembleBullets (Json.obj [("summary_points",
    Json.arr [Json.str "a", Json.num "2", Json.null, Json.str "d"])]) =
    ["a", "2", "null"] := rfl

/-! Section: `JSON.stringify` (used to build the persisted `summary` blob) -/

def hexDigitChar (n : Nat) : Char :=
  if n < 10 then Char.ofNat ('0'.toNat + n) else Char.ofNat ('a'.toNat + n - 10)

def escapeJsonChar (c : Char) : List Char :=
  if c = '"' then ['\\', '"']
  else if c = '\\' then ['\\', '\\']
  else if c = '\n' then ['\\', 'n']
  else if c = '\t' then ['\\', 't']
  else if c = '\r' then ['\\', 'r']
  else if c = '\x08' then ['\\', 'b']
  else if c = '\x0c' then ['\\', 'f']
  else if c.toNat < 0x20 then
    ['\\', 'u', '0', '0', hexDigitChar (c.toNat / 16), hexDigitChar (c.toNat % 16)]
  else [c]

def quoteJsonString (s : String) : String :=
  "\"" ++ String.mk (s.toList.map escapeJsonChar).flatten ++ "\""

mutual

def jsonStringify : Json → String
  | Json.null => "null"
  | Json.bool true => "true"
  | Json.bool false => "false"
  | Json.num lit => lit
  | Json.str s => quoteJsonString s
  | Json.arr xs => "[" ++ String.intercalate "," (stringifyElems xs) ++ "]"
  | Json.obj ms => "\x7b" ++ String.intercalate "," (stringifyMems ms) ++ "\x7d"

def stringifyElems : List Json → List String
  | [] => []
  | x :: rest => jsonStringify x :: stringifyElems rest

def stringifyMems : List (String × Json) → List String
  | [] => []
  | (k, v) :: rest => (quoteJsonString k ++ ":" ++ jsonStringify v) :: stringifyMems rest

end

example : jsonStringify (Json.obj [("summary_points",
    Json.arr [Json.str "x", Json.str "y"])]) =
    "\x7b\"summary_points\":[\"x\",\"y\"]\x7d" := rfl

/-! Section: Extractor (part_001 lines 55–73)

The HTML document is abstracted as its text-bearing elements in document
order; each node records its tag and whether it sits inside an `article`
resp. a `main` element, which is what the three cheerio selectors
`article p, article h1, article h2, article li` / `main p, main li` / `p`
inspect. -/

inductive Tag where
  | p | h1 | h2 | h3 | li | other
deriving DecidableEq

structure HtmlNode where
  tag : Tag
  inArticle : Bool
  inMain : Bool
  text : String
deriving DecidableEq

structure Doc where
  nodes : List HtmlNode
deriving DecidableEq

/-- Matched node texts: `.toArray().map(el => $(el).text()).join(" \n")`. -/
def joinNodeTexts (ns : List HtmlNode) : String :=
  String.intercalate " \n" (ns.map (·.text))

/-- Candidate (a): `$("article p, article h1, article h2, article li")`. -/
def articleCandidate (d : Doc) : String :=
  joinNodeTexts (d.nodes.filter fun n =>
    n.inArticle && (n.tag == Tag.p || n.tag == Tag.h1 || n.tag == Tag.h2 || n.tag == Tag.li))

/-- Candidate (b): `$("main p, main li")`. -/
def mainCandidate (d : Doc) : String :=
  joinNodeTexts (d.nodes.filter fun n => n.inMain && (n.tag == Tag.p || n.tag == Tag.li))

/-- Candidate (c): `$("p")`. -/
def paraCandidate (d : Doc) : String :=
  joinNodeTexts (d.nodes.filter fun n => n.tag == Tag.p)

/-- JavaScript `a || b` on strings: the empty string is the only falsy
string. -/
def jsOr (a b : String) : String := if a = "" then b else a

/-- The pure tail of `scrapeReadableText` (part_001 lines 55–73):
`raw = articleText || mainText || paraText`, then
`clamp(normalizeWhitespace(raw), 12000)`. -/
def scrapeText (d : Doc) : String :=
  clamp (normalizeWhitespace
    (jsOr (articleCandidate d) (jsOr (mainCandidate d) (paraCandidate d)))) 12000

/-! Section: HistoryStore (part_000 lines 5–41) -/

structure Summary where
  id : Int
  url : String
  title : String
  bullets : List String
  created_at : String
deriving DecidableEq

/-- State of the browser-local storage slot as the load sees it. -/
inductive StorageState where
  | absent
  | unreadable
  | stored (raw : String)
deriving DecidableEq

/-- Function `loadLocalHistory` (part_000 lines 15–24).  `absent` covers a missing
key and the no-`window` environment (both give `raw = null`, which is
falsy, so `parsed = []`); `unreadable` covers a throwing storage read,
swallowed by the `catch`.  The parsed elements are returned unvalidated
(the source casts `parsed as Summary[]`), so the model keeps them as
JSON values. -/
def loadLocalHistory (st : StorageState) : List Json :=
  match st with
  | StorageState.absent => []
  | StorageState.unreadable => []
  | StorageState.stored raw =>
    if raw = "" then []
    else
      match jsonParse? raw.toList with
      | none => []
      | some (Json.arr xs) => xs
      | some _ => []

/-- Function `upsertByUrl` (part_000 lines 38–41). -/
def upsertByUrl (items : List Summary) (entry : Summary) : List Summary :=
  entry :: items.filter fun i => i.url != entry.url

/-- Function `removeFromHistory` (part_000 lines 34–36); the source receives the
`id`/`url` pair of the entry to delete. -/
def removeFromHistory (items : List Summary) (entryId : Int) (entryUrl : String) :
    List Summary :=
  items.filter fun i => !(i.id == entryId && i.url == entryUrl)

/-! Section: The route handler `POST` (part_001 lines 121–179)

The handler's collaborators (the WHATWG `URL` constructor, the page
fetch + `cheerio.load`, the completion service, the persistence insert)
are supplied as an environment; `Except.error` models a thrown
exception, which the handler's outer `catch` maps to a 500 response. -/

structure UrlObj where
  protocol : String
  toStr : String
deriving DecidableEq

structure Payload where
  original_url : String
  title : String
  summary : String
deriving DecidableEq

structure Row where
  id : Int
  original_url : String
  title : String
  summary : Option String
  created_at : String
deriving DecidableEq

inductive RespBody where
  | err (msg : String)
  | success (id : Int) (url : String) (title : String) (bullets : List String)
      (created_at : String)
deriving DecidableEq

structure Env where
  reqBody : Option Json
  parseUrl : String → Option UrlObj
  fetchPage : String → Except String Doc
  apiKey : Option String
  mistralCall : String → String → Except String Json
  insert : Payload → Except String Row

/-- Access `choices?.[0]` — first element of an array value, `undefined`
otherwise. -/
def jsIndex0 (j : Json) : Option Json :=
  match j with
  | Json.arr (x :: _) => some x
  | _ => none

/-- Path `data?.choices?.[0]?.message?.content` as a usable string; a missing
path, the empty string (falsy) or a non-string value all fall to the
`Réponse Mistral vide` failure. -/
def mistralContent (data : Json) : Option String :=
  match ((jsGet data "choices").bind jsIndex0 |>.bind (fun c => jsGet c "message")
      |>.bind fun m => jsGet m "content") with
  | some (Json.str s) => if s = "" then none else some s
  | _ => none

/-- Function `summarizeWithMistral` (part_001 lines 79–119): credential check,
completion call, content extraction, recovery parse, assembly. -/
def summarizeWithMistral (env : Env) (text : String) :
    Except String (String × List String) :=
  match env.apiKey with
  | none => Except.error "MISTRAL_API_KEY manquant"
  | some key =>
    match env.mistralCall key text with
    | Except.error e => Except.error e
    | Except.ok data =>
      match mistralContent data with
      | none => Except.error "Réponse Mistral vide"
      | some content =>
        match extractFirstJsonObject content.toList with
        | Except.error e => Except.error e
        | Except.ok parsed => Except.ok (assembleTitle parsed, assembleBullets parsed)

/-- Function `scrapeReadableText` (part_001 lines 39–77): fetch the page (any
network/timeout/non-2xx failure is a thrown error) and extract its text. -/
def scrapeReadableText (env : Env) (targetUrl : String) : Except String String :=
  (env.fetchPage targetUrl).map scrapeText

/-- The persisted payload (part_001 lines 144–148). -/
def mkPayload (p : UrlObj) (title : String) (points : List String) : Payload :=
  ⟨p.toStr, title,
    jsonStringify (Json.obj [("summary_points", Json.arr (points.map Json.str))])⟩

/-- Body of the `try` block of `POST`; `Except.error` is an exception
reaching the outer `catch`.  `body?.url?.trim()` throws a `TypeError`
when the `url` field holds a non-string, non-nullish value. -/
def POSTinner (env : Env) : Except String (Nat × RespBody) :=
  match jsGet (env.reqBody.getD (Json.obj [])) "url" with
  | none => Except.ok (400, RespBody.err "Paramètre url manquant")
  | some Json.null => Except.ok (400, RespBody.err "Paramètre url manquant")
  | some (Json.str s) =>
    if trimStr s = "" then Except.ok (400, RespBody.err "Paramètre url manquant")
    else
      match env.parseUrl (trimStr s) with
      | none => Except.ok (400, RespBody.err "URL invalide")
      | some p =>
        if p.protocol = "http:" ∨ p.protocol = "https:" then
          match scrapeReadableText env p.toStr with
          | Except.error e => Except.error e
          | Except.ok text =>
            if text = "" then
              Except.ok (422, RespBody.err "Aucun contenu exploitable sur la page")
            else
              match summarizeWithMistral env text with
              | Except.error e => Except.error e
              | Except.ok (title, points) =>
                match env.insert (mkPayload p title points) with
                | Except.error msg => Except.ok (500, RespBody.err msg)
                | Except.ok row =>
                  Except.ok (200, RespBody.success row.id row.original_url row.title
                    (responseBullets (row.summary.getD "\x7b\x7d")) row.created_at)
        else Except.ok (400, RespBody.err "URL invalide")
  | some _ => Except.error "body.url.trim is not a function"

/-- Function `POST` (part_001 lines 121–179): the `try` body with its outer
`catch`, which turns any thrown error into a 500 `{ error }` response. -/
def POST (env : Env) : Nat × RespBody :=
  match POSTinner env with
  | Except.ok r => r
  | Except.error m => (500, RespBody.err m)

/-! Section: Lemmas about whitespace collapsing and trimming -/

theorem collapseWsAux_true_replicate_space (n : Nat) :
    collapseWsAux true (List.replicate n ' ') = [] := by
  induction n with
  | zero => rfl
  | succ m ih =>
    have hs : isJsWhitespace ' ' = true := rfl
    rw [List.replicate_succ]
    simp [collapseWsAux, hs, ih]

theorem collapseWsAux_of_forall_nonws (l : List Char)
    (h : ∀ c ∈ l, isJsWhitespace c = false) : ∀ b, collapseWsAux b l = l := by
  induction l with
  | nil => intro b; rfl
  | cons c rest ih =>
    intro b
    have hc := h c (by simp)
    simp [collapseWsAux, hc]
    exact ih (fun x hx => h x (by simp [hx])) false

theorem dropWhile_ws_eq_self (l : List Char)
    (h : ∀ c ∈ l, isJsWhitespace c = false) :
    l.dropWhile isJsWhitespace = l := by
  cases l with
  | nil => rfl
  | cons c rest =>
    have hc := h c (by simp)
    simp [List.dropWhile_cons, hc]

theorem jsTrimL_of_forall_nonws (l : List Char)
    (h : ∀ c ∈ l, isJsWhitespace c = false) : jsTrimL l = l := by
  unfold jsTrimL
  rw [dropWhile_ws_eq_self l h,
    dropWhile_ws_eq_self l.reverse (fun c hc => h c (List.mem_reverse.mp hc)),
    List.reverse_reverse]

theorem normalizeWhitespace_of_forall_nonws (s : String)
    (h : ∀ c ∈ s.toList, isJsWhitespace c = false) : normalizeWhitespace s = s := by
  show String.mk (jsTrimL (collapseWsAux false s.toList)) = s
  rw [collapseWsAux_of_forall_nonws _ h false, jsTrimL_of_forall_nonws _ h]
  cases s
  rfl

theorem collapseWsAux_cons_nonws (b : Bool) (c : Char) (l : List Char)
    (h : isJsWhitespace c = false) :
    collapseWsAux b (c :: l) = c :: collapseWsAux false l := by
  simp [collapseWsAux, h]

theorem collapseWsAux_false_cons_ws (c : Char) (l : List Char)
    (h : isJsWhitespace c = true) :
    collapseWsAux false (c :: l) = ' ' :: collapseWsAux true l := by
  simp [collapseWsAux, h]

theorem normalizeWhitespace_a_spaces :
    normalizeWhitespace (String.mk ('a' :: List.replicate 12000 ' ')) = "a" := by
  show String.mk (jsTrimL (collapseWsAux false ('a' :: List.replicate 12000 ' '))) = "a"
  have h1 : collapseWsAux false ('a' :: List.replicate 12000 ' ') = ['a', ' '] := by
    have ha : isJsWhitespace 'a' = false := rfl
    have hs : isJsWhitespace ' ' = true := rfl
    rw [collapseWsAux_cons_nonws _ _ _ ha,
      show (12000 : Nat) = 11999 + 1 from rfl, List.replicate_succ,
      collapseWsAux_false_cons_ws _ _ hs,
      collapseWsAux_true_replicate_space]
  rw [h1]
  rfl

/-! Section: Claim C2 — Normalizer/Clamper -/

/-- C2, counterexample. The claim quantifies over every *input*
longer than 12,000 characters, but the truncation applies to the
whitespace-collapsed text: an input of one letter followed by 12,000
spaces is longer than 12,000 characters, yet the Normalizer/Clamper
output is `"a"`, whose length is not 12,000. -/
theorem C2_counterexample :
    12000 < (String.mk ('a' :: List.replicate 12000 ' ')).length ∧
    (clamp (normalizeWhitespace (String.mk ('a' :: List.replicate 12000 ' '))) 12000).length
      ≠ 12000 := by
  constructor
  · show 12000 < ('a' :: List.replicate 12000 ' ').length
    rw [List.length_cons, List.length_replicate]
    omega
  · rw [normalizeWhitespace_a_spaces]
    decide

/-- C2, amended. For every input whose whitespace-collapsed, trimmed
form is longer than 12,000 characters, the Normalizer/Clamper output has
exactly 12,000 characters and is a prefix of the collapsed form;
truncation is a plain prefix with no word-boundary awareness. -/
theorem C2_amended (s : String) (h : 12000 < (normalizeWhitespace s).length) :
    (clamp (normalizeWhitespace s) 12000).length = 12000 ∧
    (clamp (normalizeWhitespace s) 12000).toList <+: (normalizeWhitespace s).toList := by
  unfold clamp
  rw [if_neg (by omega)]
  constructor
  · show ((normalizeWhitespace s).toList.take 12000).length = 12000
    rw [List.length_take]
    have hl : (normalizeWhitespace s).toList.length = (normalizeWhitespace s).length := rfl
    omega
  · exact List.take_prefix _ _

/-- C2, witness. 12,001 letters collapse to themselves, exceed the
budget, and are clamped to exactly 12,000 characters. -/
theorem C2_amended_witness :
    12000 < (normalizeWhitespace (String.mk (List.replicate 12001 'a'))).length ∧
    (clamp (normalizeWhitespace (String.mk (List.replicate 12001 'a'))) 12000).length
      = 12000 := by
  have hn : normalizeWhitespace (String.mk (List.replicate 12001 'a')) =
      String.mk (List.replicate 12001 'a') :=
    normalizeWhitespace_of_forall_nonws _
      (fun c hc => by rw [List.eq_of_mem_replicate hc]; rfl)
  have hl : 12000 < (normalizeWhitespace (String.mk (List.replicate 12001 'a'))).length := by
    rw [hn]
    show 12000 < (List.replicate 12001 'a').length
    rw [List.length_replicate]
    omega
  exact ⟨hl, (C2_amended _ hl).1⟩

/-! Section: Claim C4 — RecoveringParser on input without a `{` -/

/-- C4, counterexample. The claim asserts failure for *every* input
without a `{`, but the parser first attempts a direct full-text parse:
the input `"null"` contains no `{` and succeeds. -/
theorem C4_counterexample :
    '{' ∉ "null".toList ∧
    extractFirstJsonObject "null".toList = Except.ok Json.null :=
  ⟨by decide, rfl⟩

/-- C4, amended. For every input on which the direct full-text parse
fails and which contains no `{`, the RecoveringParser fails with the
structured-output-not-found error immediately, attempting no recovery. -/
theorem C4_amended (input : List Char) (h : jsonParse? input = none)
    (hb : '{' ∉ input) :
    extractFirstJsonObject input =
      Except.error "JSON introuvable dans la réponse du modèle" := by
  unfold extractFirstJsonObject
  rw [h]
  have hidx : input.findIdx? (fun c => c = '{') = none := by
    rw [List.findIdx?_eq_none_iff]
    intro x hx
    simp only [decide_eq_false_iff_not]
    exact fun he => hb (he ▸ hx)
  rw [hidx]

/-- C4, witness. -/
theorem C4_amended_witness :
    jsonParse? "no json here".toList = none ∧ '{' ∉ "no json here".toList ∧
    extractFirstJsonObject "no json here".toList =
      Except.error "JSON introuvable dans la réponse du modèle" :=
  ⟨rfl, by decide, C4_amended _ rfl (by decide)⟩

/-! Section: Claim C5 — assembled title -/

/-- C5, counterexample. The claim asserts the assembled title is
never the empty string, but an object whose `title` field *is* the empty
string passes the `typeof === "string"` test and is used as-is. -/
theorem C5_counterexample :
    assembleTitle (Json.obj [("title", Json.str "")]) = "" := rfl

/-- C5, amended. The assembled title equals the object's `title`
field when that field is a string and the default placeholder `"Résumé"`
otherwise; it is empty exactly when the `title` field is the empty
string. -/
theorem C5_amended (parsed : Json) :
    (∀ s, jsGet parsed "title" = some (Json.str s) → assembleTitle parsed = s) ∧
    ((∀ s, jsGet parsed "title" ≠ some (Json.str s)) →
      assembleTitle parsed = "Résumé") ∧
    (assembleTitle parsed = "" ↔ jsGet parsed "title" = some (Json.str "")) := by
  have hres : ("Résumé" : String) ≠ "" := by decide
  unfold assembleTitle
  cases hg : jsGet parsed "title" with
  | none =>
    refine ⟨?_, fun _ => rfl, ?_⟩
    · intro s hs
      cases hs
    · simp [hres]
  | some j =>
    cases j with
    | str s =>
      refine ⟨?_, ?_, ?_⟩
      · intro t ht
        simp only [Option.some.injEq, Json.str.injEq] at ht
        simpa using ht
      · intro hno
        exact absurd rfl (hno s)
      · simp
    | null =>
      refine ⟨?_, fun _ => rfl, by simp [hres]⟩
      intro s hs
      cases hs
    | bool b =>
      refine ⟨?_, fun _ => rfl, by simp [hres]⟩
      intro s hs
      cases hs
    | num l =>
      refine ⟨?_, fun _ => rfl, by simp [hres]⟩
      intro s hs
      cases hs
    | arr xs =>
      refine ⟨?_, fun _ => rfl, by simp [hres]⟩
      intro s hs
      cases hs
    | obj ms =>
      refine ⟨?_, fun _ => rfl, by simp [hres]⟩
      intro s hs
      cases hs

/-- C5, witness. -/
theorem C5_amended_witness :
    assembleTitle (Json.obj [("title", Json.str "T")]) = "T" :=
  (C5_amended _).1 "T" rfl

/-! Section: Claim C8 — history upsert -/

/-- C8, counterexample. The claim asserts at most one element per
url in *every* upsert result, but the source only filters the url of the
inserted entry: duplicates of a different url survive. -/
theorem C8_counterexample :
    ((upsertByUrl [⟨1, "b", "t1", [], "c1"⟩, ⟨2, "b", "t2", [], "c2"⟩]
      ⟨3, "a", "t3", [], "c3"⟩).countP (fun x => x.url == "b")) = 2 := by decide

/-- C8, amended. Upsert removes every existing element whose url
equals the entry's url and prepends the entry: the entry sits at index 0,
no retained element shares its url, retained elements keep their relative
order (the tail is a sublist of the input), and when the input list holds
at most one element per url — the HistoryList invariant — so does the
result; the claim's concrete replace-and-promote example holds. -/
theorem C8_amended (items : List Summary) (entry : Summary) :
    (upsertByUrl items entry).head? = some entry ∧
    (∀ x ∈ (upsertByUrl items entry).tail, x.url ≠ entry.url) ∧
    ((upsertByUrl items entry).tail.Sublist items) ∧
    (items.Pairwise (fun a b => a.url ≠ b.url) →
      (upsertByUrl items entry).Pairwise (fun a b => a.url ≠ b.url)) ∧
    upsertByUrl [⟨1, "a", "", [], ""⟩] ⟨2, "a", "", [], ""⟩ =
      [⟨2, "a", "", [], ""⟩] := by
  refine ⟨rfl, ?_, List.filter_sublist _, ?_, by decide⟩
  · intro x hx
    have hpx := List.of_mem_filter hx
    simpa using hpx
  · intro hp
    refine List.Pairwise.cons ?_ (hp.sublist (List.filter_sublist _))
    intro x hx
    have hpx := List.of_mem_filter hx
    simp only [bne_iff_ne, ne_eq] at hpx
    exact fun he => hpx he.symm

/-- C8, witness. -/
theorem C8_amended_witness :
    (upsertByUrl [⟨1, "a", "x", [], "d"⟩] ⟨2, "a", "y", [], "e"⟩).Pairwise
      (fun a b : Summary => a.url ≠ b.url) :=
  (C8_amended _ _).2.2.2.1 (by simp)

/-! Section: Claim C9 — history load never raises -/

/-- C9. The load is a total function of the storage state: absent or
unreadable storage, text that fails to parse, and text that parses to a
non-array all yield the empty list, and text that parses to an array
yields exactly that array. -/
theorem C9_load :
    (loadLocalHistory StorageState.absent = [] ∧
      loadLocalHistory StorageState.unreadable = []) ∧
    (∀ raw, jsonParse? raw.toList = none →
      loadLocalHistory (StorageState.stored raw) = []) ∧
    (∀ raw j, jsonParse? raw.toList = some j → (∀ xs, j ≠ Json.arr xs) →
      loadLocalHistory (StorageState.stored raw) = []) ∧
    (∀ raw xs, jsonParse? raw.toList = some (Json.arr xs) →
      loadLocalHistory (StorageState.stored raw) = xs) := by
  refine ⟨⟨rfl, rfl⟩, ?_, ?_, ?_⟩
  · intro raw h
    have h' : jsonParse? raw.data = none := h
    by_cases hr : raw = ""
    · simp [loadLocalHistory, hr]
    · simp [loadLocalHistory, hr, h']
  · intro raw j h hj
    have h' : jsonParse? raw.data = some j := h
    by_cases hr : raw = ""
    · simp [loadLocalHistory, hr]
    · cases j with
      | arr xs => exact absurd rfl (hj xs)
      | null => simp [loadLocalHistory, hr, h']
      | bool b => simp [loadLocalHistory, hr, h']
      | num l => simp [loadLocalHistory, hr, h']
      | str s => simp [loadLocalHistory, hr, h']
      | obj ms => simp [loadLocalHistory, hr, h']
  · intro raw xs h
    have h' : jsonParse? raw.data = some (Json.arr xs) := h
    by_cases hr : raw = ""
    · rw [hr] at h
      exact Option.noConfusion h
    · simp [loadLocalHistory, hr, h']

/-- C9, witness. -/
theorem C9_load_witness :
    loadLocalHistory (StorageState.stored "not json") = [] ∧
    loadLocalHistory (StorageState.stored "[true]") = [Json.bool true] :=
  ⟨C9_load.2.1 _ rfl, C9_load.2.2.2 _ _ rfl⟩

/-! Section: Shape of the handler's outcomes -/

/-- Every non-exceptional outcome of the `try` body is either an error
response with status 400, 422 or 500, or the 200 success response built
from the inserted row. -/
theorem POSTinner_ok_shape (env : Env) (r : Nat × RespBody)
    (h : POSTinner env = Except.ok r) :
    ((r.1 = 400 ∨ r.1 = 422 ∨ r.1 = 500) ∧ ∃ m, r.2 = RespBody.err m) ∨
    (r.1 = 200 ∧ ∃ row : Row, r.2 = RespBody.success row.id row.original_url
      row.title (responseBullets (row.summary.getD "\x7b\x7d")) row.created_at) := by
  unfold POSTinner at h
  repeat' split at h
  all_goals first
    | exact Except.noConfusion h
    | (cases h
       first
        | exact Or.inl ⟨by simp, _, rfl⟩
        | exact Or.inr ⟨rfl, _, rfl⟩)

theorem responseBullets_length_le (stored : String) :
    (responseBullets stored).length ≤ 3 := by
  unfold responseBullets
  split
  · simp
  · split
    · exact List.length_take_le _ _
    · simp

/-! Section: Claim C6 — bullets are bounded by three -/

/-- C6. When the parsed object's `summary_points` field is an array,
the assembled bullets are its entries coerced to strings and truncated to
the first three (never padded: the length is the minimum of 3 and the
array length); otherwise they are empty; the length never exceeds three,
and neither does the `bullets` field of any success response of the
handler. -/
theorem C6_bullets :
    (∀ parsed xs, jsGet parsed "summary_points" = some (Json.arr xs) →
      assembleBullets parsed = (xs.map jsToString).take 3 ∧
      (assembleBullets parsed).length = min 3 xs.length) ∧
    (∀ parsed, (∀ xs, jsGet parsed "summary_points" ≠ some (Json.arr xs)) →
      assembleBullets parsed = []) ∧
    (∀ parsed, (assembleBullets parsed).length ≤ 3) ∧
    (∀ stored, (responseBullets stored).length ≤ 3) ∧
    (∀ env r, POSTinner env = Except.ok r →
      ∀ i u t bs c, r.2 = RespBody.success i u t bs c → bs.length ≤ 3) := by
  refine ⟨?_, ?_, ?_, responseBullets_length_le, ?_⟩
  · intro parsed xs h
    constructor
    · simp [assembleBullets, h]
    · simp [assembleBullets, h, List.length_take]
  · intro parsed hno
    unfold assembleBullets
    cases hg : jsGet parsed "summary_points" with
    | none => rfl
    | some j =>
      cases j with
      | arr xs => exact absurd hg (hno xs)
      | null => rfl
      | bool b => rfl
      | num l => rfl
      | str s => rfl
      | obj ms => rfl
  · intro parsed
    unfold assembleBullets
    split
    · exact List.length_take_le _ _
    · simp
  · intro env r h i u t bs c h2
    rcases POSTinner_ok_shape env r h with ⟨_, m, hm⟩ | ⟨_, row, hrow⟩
    · rw [hm] at h2
      cases h2
    · rw [hrow] at h2
      injection h2 with h3 h4 h5 h6 h7
      rw [← h6]
      exact responseBullets_length_le _

/-- C6, witness. -/
theorem C6_bullets_witness :
    assembleBullets (Json.obj [("summary_points",
      Json.arr [Json.str "a", Json.str "b", Json.str "c", Json.str "d"])]) =
      ([Json.str "a", Json.str "b", Json.str "c", Json.str "d"].map jsToString).take 3 ∧
    (assembleBullets (Json.obj [("summary_points",
      Json.arr [Json.str "a", Json.str "b", Json.str "c", Json.str "d"])])).length =
      min 3 4 :=
  C6_bullets.1 (Json.obj [("summary_points",
    Json.arr [Json.str "a", Json.str "b", Json.str "c", Json.str "d"])])
    [Json.str "a", Json.str "b", Json.str "c", Json.str "d"] rfl

/-! Section: Claim C3 — the depth-counted recovery scan -/

theorem braceDepth_append_singleton (acc : List Char) (c : Char) :
    braceDepth (acc ++ [c]) =
      (if c = '{' then braceDepth acc + 1
       else if c = '}' then braceDepth acc - 1 else braceDepth acc) := by
  unfold braceDepth
  rw [List.foldl_append]
  rfl

theorem findSome?_map {α β γ : Type} (g : α → β) (f : β → Option γ) (l : List α) :
    (l.map g).findSome? f = l.findSome? (fun a => f (g a)) := by
  induction l with
  | nil => rfl
  | cons a t ih =>
    rw [List.map_cons, List.findSome?_cons, List.findSome?_cons]
    cases f (g a) <;> simp [ih]

theorem braceLoop_eq_scan (rest : List Char) : ∀ acc : List Char,
    braceLoop rest acc (braceDepth acc) =
      (List.range rest.length).findSome? (fun i =>
        if braceDepth (acc ++ rest.take (i + 1)) = 0 then
          jsonParse? (acc ++ rest.take (i + 1)) else none) := by
  induction rest with
  | nil => intro acc; rfl
  | cons c rs ih =>
    intro acc
    rw [List.length_cons, List.range_succ_eq_map, List.findSome?_cons, findSome?_map]
    have htake0 : (c :: rs).take (0 + 1) = [c] := rfl
    have htail : (List.range rs.length).findSome? (fun i =>
        if braceDepth (acc ++ (c :: rs).take (Nat.succ i + 1)) = 0 then
          jsonParse? (acc ++ (c :: rs).take (Nat.succ i + 1)) else none) =
        braceLoop rs (acc ++ [c]) (braceDepth (acc ++ [c])) := by
      rw [ih (acc ++ [c])]
      refine congrArg (fun f => List.findSome? f (List.range rs.length)) ?_
      funext i
      have : acc ++ (c :: rs).take (Nat.succ i + 1) = (acc ++ [c]) ++ rs.take (i + 1) := by
        rw [List.take_succ_cons, List.append_cons]
      rw [this]
    simp only [braceLoop]
    rw [← braceDepth_append_singleton]
    by_cases hz : braceDepth (acc ++ [c]) = 0
    · rw [if_pos hz, htake0, if_pos hz]
      cases hp : jsonParse? (acc ++ [c]) with
      | some v => rfl
      | none =>
        rw [← hz] at htail ⊢
        exact htail.symm
    · rw [if_neg hz, htake0, if_neg hz]
      exact htail.symm

/-- C3. When the direct full-text parse fails, the RecoveringParser
behaves as the spec's scan describes: from the first `{`, the result is
the successful parse of the substring ending at the first position where
the running brace depth returns to zero at which a parse succeeds
(`scanRecovery`), the no-brace and no-candidate cases failing with the
source's two error messages; and on the claim's concrete decorated
completion text it recovers the embedded object. -/
theorem C3_recovery :
    (∀ input : List Char, jsonParse? input = none →
      extractFirstJsonObject input =
        match input.findIdx? (fun c => c = '{') with
        | none => Except.error "JSON introuvable dans la réponse du modèle"
        | some start =>
          match scanRecovery (input.drop start) with
          | some v => Except.ok v
          | none => Except.error "Impossible d'extraire un objet JSON valide") ∧
    extractFirstJsonObject
      "Sure! \x7b\"title\":\"A\",\"summary_points\":[\"x\",\"y\"]\x7d Hope that helps!".toList =
      Except.ok (Json.obj [("title", Json.str "A"),
        ("summary_points", Json.arr [Json.str "x", Json.str "y"])]) := by
  constructor
  · intro input h
    unfold extractFirstJsonObject
    rw [h]
    cases hidx : input.findIdx? (fun c => c = '{') with
    | none => rfl
    | some start =>
      have h0 : braceDepth ([] : List Char) = 0 := rfl
      have hloop := braceLoop_eq_scan (input.drop start) []
      rw [h0] at hloop
      show (match braceLoop (input.drop start) [] 0 with
        | some v => Except.ok v
        | none => Except.error "Impossible d'extraire un objet JSON valide") =
        (match scanRecovery (input.drop start) with
        | some v => Except.ok v
        | none => Except.error "Impossible d'extraire un objet JSON valide")
      rw [hloop]
      unfold scanRecovery
      simp only [List.nil_append]
  · rfl

/-- C3, witness** (for the universally quantified part): a failed direct
parse with no brace at all lands in the no-candidate error of the scan
characterization. -/
theorem C3_recovery_witness :
    extractFirstJsonObject "Sure!".toList =
      Except.error "JSON introuvable dans la réponse du modèle" :=
  (C3_recovery.1 "Sure!".toList rfl).trans rfl

/-! Section: Claim C1 — Extractor fallback chain -/

theorem jsGet_singleton (k : String) (v : Json) :
    jsGet (Json.obj [(k, v)]) k = some v := by
  simp [jsGet]

/-- C1, counterexample. The claim selects the first candidate that is
non-empty *after trimming*, but the source tests raw non-emptiness
(`articleText || mainText || paraText`): a document whose article region
holds only a blank paragraph but which has a paragraph reading `"hello"`
elsewhere yields the empty extraction (hence the no-content error), even
though candidate (c) trims to `"hello"`. -/
theorem C1_counterexample :
    scrapeText ⟨[⟨Tag.p, true, false, " "⟩, ⟨Tag.p, false, false, "hello"⟩]⟩ = "" ∧
    normalizeWhitespace (paraCandidate
      ⟨[⟨Tag.p, true, false, " "⟩, ⟨Tag.p, false, false, "hello"⟩]⟩) = "hello" :=
  ⟨rfl, rfl⟩

/-- C1, amended. The Extractor evaluates the three candidates in
order — (a) paragraph/h1/h2/list-item text in the article region, (b)
paragraph/list-item text in the main region, (c) all paragraph text —
each the ` \n`-joined text of its matched nodes, and selects the first
candidate that is non-empty *as a raw string* (before trimming); the
selected text is whitespace-normalized and clamped to 12,000 characters,
and the boundary reports the unprocessable no-content error (422)
exactly when that normalized selection is empty. -/
theorem C1_amended :
    (∀ d : Doc, articleCandidate d ≠ "" →
      scrapeText d = clamp (normalizeWhitespace (articleCandidate d)) 12000) ∧
    (∀ d : Doc, articleCandidate d = "" → mainCandidate d ≠ "" →
      scrapeText d = clamp (normalizeWhitespace (mainCandidate d)) 12000) ∧
    (∀ d : Doc, articleCandidate d = "" → mainCandidate d = "" →
      scrapeText d = clamp (normalizeWhitespace (paraCandidate d)) 12000) ∧
    (∀ (env : Env) (u : String) (p : UrlObj) (d : Doc),
      env.reqBody = some (Json.obj [("url", Json.str u)]) →
      trimStr u ≠ "" →
      env.parseUrl (trimStr u) = some p →
      p.protocol = "https:" →
      env.fetchPage p.toStr = Except.ok d →
      ((POST env).1 = 422 ↔ scrapeText d = "")) := by
  refine ⟨?_, ?_, ?_, ?_⟩
  · intro d hd
    unfold scrapeText jsOr
    rw [if_neg hd]
  · intro d h1 h2
    unfold scrapeText jsOr
    rw [if_pos h1, if_neg h2]
  · intro d h1 h2
    unfold scrapeText jsOr
    rw [if_pos h1, if_pos h2]
  · intro env u p d hb ht hp hproto hf
    have hbody : env.reqBody.getD (Json.obj []) = Json.obj [("url", Json.str u)] := by
      rw [hb]
      rfl
    have h1 : POSTinner env =
        (if scrapeText d = "" then
          Except.ok (422, RespBody.err "Aucun contenu exploitable sur la page")
        else
          match summarizeWithMistral env (scrapeText d) with
          | Except.error e => Except.error e
          | Except.ok (title, points) =>
            match env.insert (mkPayload p title points) with
            | Except.error msg => Except.ok (500, RespBody.err msg)
            | Except.ok row => Except.ok (200, RespBody.success row.id
                row.original_url row.title (responseBullets (row.summary.getD "\x7b\x7d"))
                row.created_at)) := by
      simp only [POSTinner, hbody, jsGet_singleton]
      rw [if_neg ht, hp]
      simp only [scrapeReadableText, hf]
      rw [if_pos (Or.inr hproto)]
      rfl
    unfold POST
    rw [h1]
    by_cases hsc : scrapeText d = ""
    · rw [if_pos hsc]
      simp [hsc]
    · rw [if_neg hsc]
      cases hsm : summarizeWithMistral env (scrapeText d) with
      | error e => simp [hsc]
      | ok tp =>
        obtain ⟨t, pts⟩ := tp
        cases hins : env.insert (mkPayload p t pts) with
        | error msg => simp [hsc, hins]
        | ok row => simp [hsc, hins]

/-- C1, witness** (for the 422-iff conjunct): a reachable fetch of an
empty document makes the boundary answer 422. -/
theorem C1_amended_witness :
    ((POST ⟨some (Json.obj [("url", Json.str "https://e.x/")]),
      fun s => if s = "https://e.x/" then some ⟨"https:", "https://e.x/"⟩ else none,
      fun _ => Except.ok (Doc.mk []), none,
      fun _ _ => Except.error "nc",
      fun _ => Except.error "ni"⟩).1 = 422 ↔ scrapeText (Doc.mk []) = "") :=
  C1_amended.2.2.2 _ _ _ _ rfl (by decide) rfl rfl rfl

/-! Section: Claim C7 — boundary error mapping -/

/-- Reduction of the handler up to the scrape, once the URL stage has
succeeded. -/
theorem POSTinner_at_scrape (env : Env) (u : String) (p : UrlObj)
    (hb : jsGet (env.reqBody.getD (Json.obj [])) "url" = some (Json.str u))
    (ht : trimStr u ≠ "") (hp : env.parseUrl (trimStr u) = some p)
    (hproto : p.protocol = "http:" ∨ p.protocol = "https:") :
    POSTinner env =
      match env.fetchPage p.toStr with
      | Except.error e => Except.error e
      | Except.ok d =>
        if scrapeText d = "" then
          Except.ok (422, RespBody.err "Aucun contenu exploitable sur la page")
        else
          match summarizeWithMistral env (scrapeText d) with
          | Except.error e => Except.error e
          | Except.ok (title, points) =>
            match env.insert (mkPayload p title points) with
            | Except.error msg => Except.ok (500, RespBody.err msg)
            | Except.ok row => Except.ok (200, RespBody.success row.id
                row.original_url row.title (responseBullets (row.summary.getD "\x7b\x7d"))
                row.created_at) := by
  unfold POSTinner
  rw [hb]
  dsimp only
  rw [if_neg ht, hp]
  dsimp only
  rw [if_pos hproto]
  unfold scrapeReadableText
  cases hf : env.fetchPage p.toStr with
  | error e => rfl
  | ok d => rfl

/-- C7, counterexample. The claim maps every invalid URL to a client
error (400), but a request whose `url` field holds a non-string value
makes `body?.url?.trim()` throw a `TypeError`, which the outer catch maps
to a *server* error (500). -/
theorem C7_counterexample :
    POST ⟨some (Json.obj [("url", Json.num "42")]),
      fun _ => none, fun _ => Except.error "nf", none,
      fun _ _ => Except.error "nc", fun _ => Except.error "ni"⟩ =
      (500, RespBody.err "body.url.trim is not a function") := rfl

/-- C7, amended. Every outcome of the boundary is one of the statuses
200, 400, 422, 500, every non-200 body is `{ error: string }`, and each
stage failure maps to its class — missing url, unparseable url and bad
protocol to 400; a non-string url value to 500 via the caught
`TypeError`; source-fetch failure to 500; empty extraction to 422;
completion-service failure to 500; persistence failure to 500.  No
failure escapes: `POST` is a total function of its environment. -/
theorem C7_amended :
    (∀ env : Env, (POST env).1 = 200 ∨ (((POST env).1 = 400 ∨ (POST env).1 = 422 ∨
      (POST env).1 = 500) ∧ ∃ m, (POST env).2 = RespBody.err m)) ∧
    (∀ env : Env, jsGet (env.reqBody.getD (Json.obj [])) "url" = none →
      POST env = (400, RespBody.err "Paramètre url manquant")) ∧
    (∀ (env : Env) (u : String),
      jsGet (env.reqBody.getD (Json.obj [])) "url" = some (Json.str u) →
      trimStr u ≠ "" → env.parseUrl (trimStr u) = none →
      POST env = (400, RespBody.err "URL invalide")) ∧
    (∀ (env : Env) (u : String) (p : UrlObj),
      jsGet (env.reqBody.getD (Json.obj [])) "url" = some (Json.str u) →
      trimStr u ≠ "" → env.parseUrl (trimStr u) = some p →
      ¬(p.protocol = "http:" ∨ p.protocol = "https:") →
      POST env = (400, RespBody.err "URL invalide")) ∧
    (∀ (env : Env) (j : Json),
      jsGet (env.reqBody.getD (Json.obj [])) "url" = some j →
      (∀ s, j ≠ Json.str s) → j ≠ Json.null →
      POST env = (500, RespBody.err "body.url.trim is not a function")) ∧
    (∀ (env : Env) (u : String) (p : UrlObj) (m : String),
      jsGet (env.reqBody.getD (Json.obj [])) "url" = some (Json.str u) →
      trimStr u ≠ "" → env.parseUrl (trimStr u) = some p →
      (p.protocol = "http:" ∨ p.protocol = "https:") →
      env.fetchPage p.toStr = Except.error m →
      POST env = (500, RespBody.err m)) ∧
    (∀ (env : Env) (u : String) (p : UrlObj) (d : Doc),
      jsGet (env.reqBody.getD (Json.obj [])) "url" = some (Json.str u) →
      trimStr u ≠ "" → env.parseUrl (trimStr u) = some p →
      (p.protocol = "http:" ∨ p.protocol = "https:") →
      env.fetchPage p.toStr = Except.ok d → scrapeText d = "" →
      POST env = (422, RespBody.err "Aucun contenu exploitable sur la page")) ∧
    (∀ (env : Env) (u : String) (p : UrlObj) (d : Doc) (m : String),
      jsGet (env.reqBody.getD (Json.obj [])) "url" = some (Json.str u) →
      trimStr u ≠ "" → env.parseUrl (trimStr u) = some p →
      (p.protocol = "http:" ∨ p.protocol = "https:") →
      env.fetchPage p.toStr = Except.ok d → scrapeText d ≠ "" →
      summarizeWithMistral env (scrapeText d) = Except.error m →
      POST env = (500, RespBody.err m)) ∧
    (∀ (env : Env) (u : String) (p : UrlObj) (d : Doc) (t : String)
      (pts : List String) (m : String),
      jsGet (env.reqBody.getD (Json.obj [])) "url" = some (Json.str u) →
      trimStr u ≠ "" → env.parseUrl (trimStr u) = some p →
      (p.protocol = "http:" ∨ p.protocol = "https:") →
      env.fetchPage p.toStr = Except.ok d → scrapeText d ≠ "" →
      summarizeWithMistral env (scrapeText d) = Except.ok (t, pts) →
      env.insert (mkPayload p t pts) = Except.error m →
      POST env = (500, RespBody.err m)) := by
  refine ⟨?_, ?_, ?_, ?_, ?_, ?_, ?_, ?_, ?_⟩
  · intro env
    unfold POST
    cases h : POSTinner env with
    | error m => exact Or.inr ⟨Or.inr (Or.inr rfl), m, rfl⟩
    | ok r =>
      rcases POSTinner_ok_shape env r h with ⟨hs, m, hm⟩ | ⟨h200, _⟩
      · exact Or.inr ⟨hs, m, hm⟩
      · exact Or.inl h200
  · intro env h
    have hi : POSTinner env = Except.ok (400, RespBody.err "Paramètre url manquant") := by
      unfold POSTinner
      rw [h]
    unfold POST
    rw [hi]
  · intro env u h ht hp
    have hi : POSTinner env = Except.ok (400, RespBody.err "URL invalide") := by
      unfold POSTinner
      rw [h]
      dsimp only
      rw [if_neg ht, hp]
    unfold POST
    rw [hi]
  · intro env u p h ht hp hproto
    have hi : POSTinner env = Except.ok (400, RespBody.err "URL invalide") := by
      unfold POSTinner
      rw [h]
      dsimp only
      rw [if_neg ht, hp]
      dsimp only
      rw [if_neg hproto]
    unfold POST
    rw [hi]
  · intro env j h hstr hnull
    have hi : POSTinner env = Except.error "body.url.trim is not a function" := by
      unfold POSTinner
      rw [h]
      cases j with
      | null => exact absurd rfl hnull
      | str s => exact absurd rfl (hstr s)
      | bool b => rfl
      | num l => rfl
      | arr xs => rfl
      | obj ms => rfl
    unfold POST
    rw [hi]
  · intro env u p m hb ht hp hproto hf
    have hi := POSTinner_at_scrape env u p hb ht hp hproto
    rw [hf] at hi
    unfold POST
    rw [hi]
  · intro env u p d hb ht hp hproto hf hsc
    have hi := POSTinner_at_scrape env u p hb ht hp hproto
    rw [hf] at hi
    unfold POST
    rw [hi]
    dsimp only
    rw [if_pos hsc]
  · intro env u p d m hb ht hp hproto hf hsc hsm
    have hi := POSTinner_at_scrape env u p hb ht hp hproto
    rw [hf] at hi
    unfold POST
    rw [hi]
    dsimp only
    rw [if_neg hsc, hsm]
  · intro env u p d t pts m hb ht hp hproto hf hsc hsm hins
    have hi := POSTinner_at_scrape env u p hb ht hp hproto
    rw [hf] at hi
    unfold POST
    rw [hi]
    dsimp only
    rw [if_neg hsc, hsm]
    dsimp only
    rw [hins]

/-- C7, witness. -/
theorem C7_amended_witness :
    POST ⟨some (Json.obj []), fun _ => none, fun _ => Except.error "nf", none,
      fun _ _ => Except.error "nc", fun _ => Except.error "ni"⟩ =
      (400, RespBody.err "Paramètre url manquant") ∧
    POST ⟨some (Json.obj [("url", Json.str "https://e.x/")]),
      fun s => if s = "https://e.x/" then some ⟨"https:", "https://e.x/"⟩ else none,
      fun _ => Except.error "boom", none, fun _ _ => Except.error "nc",
      fun _ => Except.error "ni"⟩ = (500, RespBody.err "boom") :=
  ⟨C7_amended.2.1 _ rfl,
    C7_amended.2.2.2.2.2.1 _ "https://e.x/" ⟨"https:", "https://e.x/"⟩ "boom"
      rfl (by decide) rfl (Or.inr rfl) rfl⟩

/-! Section: Claim C10 — canonical URL serialization -/

/-- C10. The persisted payload's `original_url` is the serialization
of the parsed URL object (`parsed.toString()`), not the submitted string;
assuming the persistence collaborator returns the stored row (the spec's
persistence contract), the success response's `url` equals that same
serialization; consequently two submitted strings whose parses serialize
identically produce identical handler outcomes. -/
theorem C10_canonical_url :
    (∀ (p : UrlObj) (t : String) (pts : List String),
      (mkPayload p t pts).original_url = p.toStr) ∧
    (∀ (env : Env) (u : String) (p : UrlObj),
      jsGet (env.reqBody.getD (Json.obj [])) "url" = some (Json.str u) →
      trimStr u ≠ "" → env.parseUrl (trimStr u) = some p →
      (p.protocol = "http:" ∨ p.protocol = "https:") →
      (∀ pl r, env.insert pl = Except.ok r → r.original_url = pl.original_url) →
      ∀ i url t bs c, (POST env).2 = RespBody.success i url t bs c →
        url = p.toStr) ∧
    (∀ (env : Env) (u₁ u₂ : String),
      env.parseUrl (trimStr u₁) = env.parseUrl (trimStr u₂) →
      trimStr u₁ ≠ "" → trimStr u₂ ≠ "" →
      POST { env with reqBody := some (Json.obj [("url", Json.str u₁)]) } =
      POST { env with reqBody := some (Json.obj [("url", Json.str u₂)]) }) := by
  refine ⟨fun p t pts => rfl, ?_, ?_⟩
  · intro env u p hb ht hp hproto hecho i url t bs c hsucc
    have hi := POSTinner_at_scrape env u p hb ht hp hproto
    unfold POST at hsucc
    cases hf : env.fetchPage p.toStr with
    | error e =>
      rw [hf] at hi
      rw [hi] at hsucc
      dsimp only at hsucc
      cases hsucc
    | ok d =>
      rw [hf] at hi
      rw [hi] at hsucc
      dsimp only at hsucc
      by_cases hsc : scrapeText d = ""
      · rw [if_pos hsc] at hsucc
        dsimp only at hsucc
        cases hsucc
      · rw [if_neg hsc] at hsucc
        cases hsm : summarizeWithMistral env (scrapeText d) with
        | error e =>
          rw [hsm] at hsucc
          dsimp only at hsucc
          cases hsucc
        | ok tp =>
          obtain ⟨tt, pts⟩ := tp
          rw [hsm] at hsucc
          dsimp only at hsucc
          cases hins : env.insert (mkPayload p tt pts) with
          | error m =>
            rw [hins] at hsucc
            dsimp only at hsucc
            cases hsucc
          | ok row =>
            rw [hins] at hsucc
            dsimp only at hsucc
            injection hsucc with h1 h2 h3 h4 h5
            rw [← h2]
            exact hecho _ _ hins
  · intro env u₁ u₂ hpu ht1 ht2
    unfold POST POSTinner
    simp only [Option.getD_some, jsGet_singleton]
    rw [if_neg ht1, if_neg ht2]
    rw [hpu]
    rfl

/-- C10, witness** (canonicalization invariance at a concrete pair of
inputs differing only in a trailing slash). -/
theorem C10_canonical_url_witness :
    POST { (⟨none,
      fun s => if s = "https://e.x" ∨ s = "https://e.x/" then
        some ⟨"https:", "https://e.x/"⟩ else none,
      fun _ => Except.error "nf", none, fun _ _ => Except.error "nc",
      fun _ => Except.error "ni"⟩ : Env) with
        reqBody := some (Json.obj [("url", Json.str "https://e.x")]) } =
    POST { (⟨none,
      fun s => if s = "https://e.x" ∨ s = "https://e.x/" then
        some ⟨"https:", "https://e.x/"⟩ else none,
      fun _ => Except.error "nf", none, fun _ _ => Except.error "nc",
      fun _ => Except.error "ni"⟩ : Env) with
        reqBody := some (Json.obj [("url", Json.str "https://e.x/")]) } :=
  C10_canonical_url.2.2 _ "https://e.x" "https://e.x/" (by decide) (by decide) (by decide)

end SWS
